import Mathlib

/-!
Shallow embedding of the live transcription session controller of
`src/components/Recorder.tsx` (Ezi lecture transcriber).

The React component keeps its session state in refs and `useState` cells;
we collect them into one record `RecState`.  The component's functions
(`stopEverything`, `startRecording`, the `onopen` / `onmessage` /
`onclose` / `onerror` callbacks, the timer tick, the audio-processor
callback and `handleFinish`) become pure state transformers, and a trace
semantics `runActions` interleaves them, mirroring the single-threaded
event-driven execution model.

JS transcript strings are modelled by lists of characters (`JStr`), so
that `startsWith` / `substring` / `trim` / `length` are the corresponding
structural list operations; opaque metadata strings (ISO dates, error
messages, device ids) stay `String`.  JS numbers holding the
elapsed-seconds counter and timestamps are modelled by `Nat` (the counter
starts at 0 and is only ever incremented by 1).  The JS `x || y` idiom on
numbers (`turnStartTimeRef.current || elapsedTimeRef.current`) is modelled
by an explicit test against 0, and on strings by a test against the empty
string.
-/

namespace Recorder

/-- A JS string carrying transcript text, as its list of characters. -/
abbrev JStr := List Char

/-- JS `String.prototype.trim`: remove leading and trailing whitespace. -/
def jsTrim (t : JStr) : JStr :=
  ((t.dropWhile Char.isWhitespace).reverse.dropWhile Char.isWhitespace).reverse

/-- `TranscriptChunk` from `src/types` (`{ timestamp: number; text: string }`). -/
structure TranscriptChunk where
  timestamp : Nat
  text : JStr
deriving Repr, DecidableEq

/-- `RecordingResult` from `src/components/Recorder.tsx`. -/
structure RecordingResult where
  startTime : String
  endTime : String
  duration : Nat
  text : JStr
  chunks : List TranscriptChunk
deriving Repr, DecidableEq

/-- State of the underlying streaming connection (spec §4.4 state machine);
`idle` before `ai.live.connect` is called, `connecting` while the handshake
is pending, then driven by the `onopen` / `onclose` / `onerror` callbacks. -/
inductive ConnState where
  | idle
  | connecting
  | open
  | closed
  | errored
deriving Repr, DecidableEq

/-- The component state: every `useState` cell and `useRef` of the recorder
relevant to the session, plus the connection state of the streaming session
it owns and two ghost frame counters used to state the audio-flow claims.
Handle-holding refs (`streamRef`, `audioContextRef`, `processorRef`,
`sourceRef`, `sessionRef`, `timerRef`) are modelled by `Bool` flags:
`true` iff the ref currently holds a live handle. -/
structure RecState where
  isRecording : Bool
  elapsedTime : Nat          -- `useState` cell read by the UI and by `handleFinish`
  errorMsg : Option String
  startTime : Option String
  chunks : List TranscriptChunk      -- `chunksRef.current`
  currentTurn : JStr                 -- `currentTurnRef.current`
  turnStart : Nat                    -- `turnStartTimeRef.current`
  isTurnActive : Bool                -- `isTurnActiveRef.current`
  elapsedRef : Nat                   -- `elapsedTimeRef.current`
  streamOpen : Bool                  -- `streamRef` holds a live MediaStream
  audioCtxOpen : Bool                -- `audioContextRef` holds an open AudioContext
  processorConnected : Bool          -- `processorRef` holds a connected ScriptProcessorNode
  sourceConnected : Bool             -- `sourceRef` holds a connected source node
  sessionRefSet : Bool               -- `sessionRef.current !== null`
  timerSet : Bool                    -- `timerRef` holds a running interval
  connState : ConnState              -- state of the live connection itself
  openHappened : Bool                -- ghost: the `onopen` callback has fired this session
  sentFrames : Nat                   -- ghost: frames encoded and sent this session
  framesAfterOpen : Nat              -- ghost: frames captured after the open transition
deriving Repr, DecidableEq

/-- Number of open audio handles held by the controller: the media stream,
the audio context, the processor node and the source node. -/
def openAudioHandles (s : RecState) : Nat :=
  (if s.streamOpen then 1 else 0) + (if s.audioCtxOpen then 1 else 0) +
  (if s.processorConnected then 1 else 0) + (if s.sourceConnected then 1 else 0)

/-- `stopEverything` (Recorder.tsx lines 76–101): disconnect processor and
source, close the audio context, stop every media track, drop the session
ref, clear the interval, `setIsRecording(false)`.  Note: it only nulls
`sessionRef.current`; no `close()` is sent on the connection, so
`connState` is untouched. -/
def stopEverything (s : RecState) : RecState :=
  { s with
    processorConnected := false
    sourceConnected := false
    audioCtxOpen := false
    streamOpen := false
    sessionRefSet := false
    timerSet := false
    isRecording := false }

/-- `startRecording` (lines 200–236, happy path up to `ai.live.connect`):
reset the transcript state and the timer cells, record the ISO start time,
open a fresh audio context and media stream, and begin connecting.  The
ghost per-session frame counters restart at zero. -/
def startRecording (now : String) (s : RecState) : RecState :=
  { s with
    errorMsg := none
    elapsedTime := 0
    elapsedRef := 0
    startTime := some now
    chunks := []
    currentTurn := []
    isTurnActive := false
    turnStart := 0
    audioCtxOpen := true
    streamOpen := true
    connState := ConnState.connecting
    processorConnected := false
    sourceConnected := false
    sessionRefSet := false
    timerSet := false
    isRecording := false
    openHappened := false
    sentFrames := 0
    framesAfterOpen := 0 }

/-- `onopen` callback (lines 245–270): `setIsRecording(true)`, start the
one-second interval, create and connect the source and processor nodes. -/
def onopen (s : RecState) : RecState :=
  { s with
    isRecording := true
    timerSet := true
    sourceConnected := true
    processorConnected := true
    connState := ConnState.open
    openHappened := true }

/-- One timer tick (lines 248–251): `setElapsedTime(prev => prev + 1)` and
`elapsedTimeRef.current += 1`. -/
def tick (s : RecState) : RecState :=
  { s with elapsedTime := s.elapsedTime + 1, elapsedRef := s.elapsedRef + 1 }

/-- First half of the `onmessage` callback (lines 275–292): handle
`serverContent.inputTranscription`.  A present, non-empty fragment that
arrives while no turn is active begins a new turn (`isTurnActiveRef` set,
`turnStartElapsed` recorded from the elapsed-seconds counter) and the
de-duplication heuristic runs: when the previously committed chunk's text
is longer than 5 characters and is a prefix of the fragment, that prefix
is stripped.  The (possibly stripped) fragment is appended to the
in-flight buffer. -/
def reconcileText (s : RecState) (inputTranscription : Option JStr) :
    RecState :=
  match inputTranscription with
  | none => s
  | some text =>
    if text = [] then s
    else
      if s.isTurnActive then
        { s with currentTurn := s.currentTurn ++ text }
      else
        let text' :=
          match s.chunks.getLast? with
          | none => text
          | some lastChunk =>
            if lastChunk.text.length > 5 ∧ lastChunk.text.isPrefixOf text then
              text.drop lastChunk.text.length
            else text
        { s with
          isTurnActive := true
          turnStart := s.elapsedRef
          currentTurn := s.currentTurn ++ text' }

/-- Second half of the `onmessage` callback (lines 294–305): handle
`serverContent.turnComplete`.  When the in-flight buffer trims to
something non-empty it is committed as a chunk stamped with
`turnStartElapsed`; in every case the buffer is cleared and the turn is
marked inactive. -/
def reconcileTurnComplete (s : RecState) : RecState :=
  let s2 :=
    if jsTrim s.currentTurn ≠ [] then
      { s with chunks := s.chunks ++ [⟨s.turnStart, jsTrim s.currentTurn⟩] }
    else s
  { s2 with currentTurn := [], isTurnActive := false }

/-- `onmessage` callback (lines 271–313): the transcription phase followed,
when `turnComplete` is set, by the commit phase. -/
def onmessage (s : RecState) (inputTranscription : Option JStr)
    (turnComplete : Bool) : RecState :=
  let s1 := reconcileText s inputTranscription
  if turnComplete then reconcileTurnComplete s1 else s1

/-- `onclose` callback (line 314): `setIsRecording(false)`.  Nothing else is
released here. -/
def onclose (s : RecState) : RecState :=
  { s with isRecording := false, connState := ConnState.closed }

/-- `onerror` callback (lines 315–320): the connection has errored; surface
a message and run `stopEverything`. -/
def onerror (m : String) (s : RecState) : RecState :=
  stopEverything { s with errorMsg := some m, connState := ConnState.errored }

/-- One `onaudioprocess` callback (lines 259–266): fires only while the
audio graph is wired (source and processor connected on a live stream);
the frame is PCM-encoded and sent on the session, and `sessionRef` is set
from the resolved session promise.  A frame captured while the graph is
not wired reaches no handler: it is dropped, never buffered.  The ghost
counter `framesAfterOpen` counts every frame captured (stream live) after
the open transition, whether or not it is sent. -/
def onframe (s : RecState) : RecState :=
  if s.streamOpen then
    let s' := { s with
      framesAfterOpen := s.framesAfterOpen + (if s.openHappened then 1 else 0) }
    if s.processorConnected && s.sourceConnected then
      { s' with sentFrames := s'.sentFrames + 1, sessionRefSet := true }
    else s'
  else s

/-- JS `a || b` for an optional string state cell (`startTime || fallback`):
`null` and `""` are falsy. -/
def strOrElse (a : Option String) (b : String) : String :=
  match a with
  | none => b
  | some t => if t = "" then b else t

/-- `handleFinish`, line 339: `if (isRecording) stopEverything()`. -/
def finishStop (s : RecState) : RecState :=
  if s.isRecording then stopEverything s else s

/-- `handleFinish`, lines 341–347: force-commit a non-empty in-flight turn
with timestamp `turnStartTimeRef.current || elapsedTimeRef.current`
(JS `||`: the elapsed value is used whenever `turnStart` is `0`). -/
def finishCommit (s : RecState) : RecState :=
  if jsTrim s.currentTurn ≠ [] then
    { s with chunks := s.chunks ++
        [⟨if s.turnStart = 0 then s.elapsedRef else s.turnStart,
          jsTrim s.currentTurn⟩] }
  else s

/-- `handleFinish`, lines 353–361: the `RecordingResult` handed to the
caller, built from the post-commit state. -/
def finishResult (now : String) (s : RecState) : RecordingResult :=
  { startTime := strOrElse s.startTime now
    endTime := now
    duration := s.elapsedTime
    text := List.intercalate " ".toList (s.chunks.map TranscriptChunk.text)
    chunks := s.chunks }

/-- `handleFinish` (lines 338–362): stop if still recording, force-commit a
non-empty in-flight turn, ask for confirmation when no chunk was committed
(`confirmAns` models the `confirm` dialog; `none` is returned when the
user declines), and otherwise hand a `RecordingResult` to the caller.
`now` models `new Date().toISOString()` at finish time. -/
def handleFinish (confirmAns : Bool) (now : String) (s : RecState) :
    Option RecordingResult × RecState :=
  let s2 := finishCommit (finishStop s)
  if s2.chunks.length = 0 && !confirmAns then (none, s2)
  else (some (finishResult now s2), s2)

/-- The actions that can reach the controller: the user operations and the
asynchronous callbacks.  `stop` covers the stop button, `cancel()` and the
unmount cleanup, all of which run `stopEverything`. -/
inductive Action where
  | start (now : String)
  | openEvt
  | message (inputTranscription : Option JStr) (turnComplete : Bool)
  | closeEvt
  | errorEvt (m : String)
  | tickEvt
  | frame
  | stop
  | finish (confirmAns : Bool) (now : String)
deriving Repr, DecidableEq

/-- Apply one action.  Connection callbacks fire only in the connection
states from which they can occur; the timer ticks only while the interval
is set.  (`finish` returns a result to the caller; only its state effect
matters here.) -/
def applyAction (s : RecState) : Action → RecState
  | Action.start now => startRecording now s
  | Action.openEvt =>
      if s.connState = ConnState.connecting then onopen s else s
  | Action.message it tc =>
      if s.connState = ConnState.open then onmessage s it tc else s
  | Action.closeEvt =>
      if s.connState = ConnState.open ∨ s.connState = ConnState.connecting then
        onclose s
      else s
  | Action.errorEvt m =>
      if s.connState = ConnState.open ∨ s.connState = ConnState.connecting then
        onerror m s
      else s
  | Action.tickEvt => if s.timerSet then tick s else s
  | Action.frame => onframe s
  | Action.stop => stopEverything s
  | Action.finish c now => (handleFinish c now s).2

/-- Run a list of actions from a state. -/
def runActions (s : RecState) (acts : List Action) : RecState :=
  acts.foldl applyAction s

/-- The freshly mounted component: every ref null, every counter zero. -/
def init : RecState :=
  { isRecording := false
    elapsedTime := 0
    errorMsg := none
    startTime := none
    chunks := []
    currentTurn := []
    isTurnActive := false
    turnStart := 0
    elapsedRef := 0
    streamOpen := false
    audioCtxOpen := false
    processorConnected := false
    sourceConnected := false
    sessionRefSet := false
    timerSet := false
    connState := ConnState.idle
    openHappened := false
    sentFrames := 0
    framesAfterOpen := 0 }

/-- An action is part of an ongoing session (everything except `start`,
which begins a fresh session and resets the chunk list). -/
def Action.inSession : Action → Bool
  | Action.start _ => false
  | _ => true

/-- `finish` actions end the session and hand off the result. -/
def Action.isFinish : Action → Bool
  | Action.finish _ _ => true
  | _ => false

/-- The controller is fully stopped: every handle ref is null, the timer is
cleared and `isRecording` is false. -/
def stopped (s : RecState) : Prop :=
  s.processorConnected = false ∧ s.sourceConnected = false ∧
  s.audioCtxOpen = false ∧ s.streamOpen = false ∧
  s.sessionRefSet = false ∧ s.timerSet = false ∧ s.isRecording = false

/-! Helper lemmas shared by the claim theorems. -/

theorem stopEverything_fields (s : RecState) :
    (stopEverything s).chunks = s.chunks ∧
    (stopEverything s).currentTurn = s.currentTurn ∧
    (stopEverything s).turnStart = s.turnStart ∧
    (stopEverything s).isTurnActive = s.isTurnActive ∧
    (stopEverything s).elapsedRef = s.elapsedRef ∧
    (stopEverything s).elapsedTime = s.elapsedTime ∧
    (stopEverything s).connState = s.connState :=
  ⟨rfl, rfl, rfl, rfl, rfl, rfl, rfl⟩

theorem finishStop_fields (s : RecState) :
    (finishStop s).chunks = s.chunks ∧
    (finishStop s).currentTurn = s.currentTurn ∧
    (finishStop s).turnStart = s.turnStart ∧
    (finishStop s).elapsedRef = s.elapsedRef ∧
    (finishStop s).elapsedTime = s.elapsedTime := by
  unfold finishStop
  split <;> exact ⟨rfl, rfl, rfl, rfl, rfl⟩

theorem finishCommit_chunks (s : RecState) :
    ∃ t, (finishCommit s).chunks = s.chunks ++ t := by
  unfold finishCommit
  split
  · exact ⟨_, rfl⟩
  · exact ⟨[], (List.append_nil _).symm⟩

theorem finishCommit_elapsedTime (s : RecState) :
    (finishCommit s).elapsedTime = s.elapsedTime := by
  unfold finishCommit
  split <;> rfl

/-- The state left behind by `handleFinish` is the post-commit state. -/
theorem handleFinish_state (c : Bool) (now : String) (s : RecState) :
    (handleFinish c now s).2 = finishCommit (finishStop s) := by
  unfold handleFinish
  dsimp only
  split <;> rfl

/-- The state left behind by `handleFinish` extends the chunk list of the
input state. -/
theorem handleFinish_state_chunks (c : Bool) (now : String) (s : RecState) :
    ∃ t, (handleFinish c now s).2.chunks = s.chunks ++ t := by
  rw [handleFinish_state]
  rw [← (finishStop_fields s).1]
  exact finishCommit_chunks (finishStop s)

/-- When `handleFinish` produces a result, it is built by `finishResult`
from the post-commit state. -/
theorem handleFinish_result (c : Bool) (now : String) (s : RecState)
    (r : RecordingResult) (h : (handleFinish c now s).1 = some r) :
    r = finishResult now (finishCommit (finishStop s)) := by
  unfold handleFinish at h
  dsimp only at h
  split at h
  · exact absurd h (by simp)
  · exact (Option.some.injEq _ _ ▸ h).symm

/-- Claim C5: for every turn-complete event (any server message whose
`turnComplete` flag is set, whatever fragment the same message carried),
if the in-flight buffer — after the message's transcription phase — is
non-empty once trimmed, exactly one chunk `{timestamp: turnStartElapsed,
text: trimmed buffer}` is appended to `committedChunks`; if it trims to
empty, nothing is committed; in both cases the buffer is cleared and the
turn is marked inactive. -/
theorem C5_turn_complete_commit (s : RecState) (it : Option JStr) :
    (onmessage s it true).chunks =
      (if jsTrim (reconcileText s it).currentTurn ≠ [] then
        (reconcileText s it).chunks ++
          [⟨(reconcileText s it).turnStart, jsTrim (reconcileText s it).currentTurn⟩]
      else (reconcileText s it).chunks) ∧
    (onmessage s it true).currentTurn = [] ∧
    (onmessage s it true).isTurnActive = false := by
  by_cases h : jsTrim (reconcileText s it).currentTurn = []
  · simp [onmessage, reconcileTurnComplete, h]
  · simp [onmessage, reconcileTurnComplete, h]

/-- Claim C9: the `duration` field of the `RecordingResult` produced by
`finish()` equals the session timer's elapsed-seconds cell at finish time,
independent of the timestamp of any chunk. -/
theorem C9_result_duration (s : RecState) (c : Bool) (now : String)
    (r : RecordingResult) (h : (handleFinish c now s).1 = some r) :
    r.duration = s.elapsedTime := by
  rw [handleFinish_result c now s r h]
  show (finishCommit (finishStop s)).elapsedTime = s.elapsedTime
  rw [finishCommit_elapsedTime, (finishStop_fields s).2.2.2.2]

/-- Concrete input for the C9 witness: a session finished at
elapsed-seconds 125, with one chunk whose timestamp is 3. -/
def c9StateW : RecState :=
  { init with elapsedTime := 125, elapsedRef := 125, chunks := [⟨3, "a".toList⟩] }

/-- The result `handleFinish` returns on `c9StateW`. -/
def c9ResultW : RecordingResult :=
  { startTime := "T1", endTime := "T1", duration := 125, text := "a".toList,
    chunks := [⟨3, "a".toList⟩] }

/-- Witness for C9: finishing at elapsed-seconds 125 yields duration 125
even though the last chunk's timestamp is 3. -/
theorem C9_result_duration_witness :
    c9ResultW.duration = c9StateW.elapsedTime ∧ c9ResultW.duration = 125 ∧
    c9ResultW.chunks.map TranscriptChunk.timestamp = [3] :=
  ⟨C9_result_duration c9StateW true "T1" c9ResultW (by decide), by decide, by decide⟩

/-- An open recording session about to be stopped: start, then the
connection opens. -/
def c8PreStateW : RecState :=
  runActions init [Action.start "T0", Action.openEvt]

/-- Counterexample to claim C8 as stated: stopping the open session once
or twice does reach the same end state, but that end state does NOT have
the session closed — `stopEverything` never closes the streaming
connection, so its state is still `open`, not `closed`.  The claimed end
state "(session closed, zero audio handles, timer stopped)" is therefore
wrong in its first conjunct. -/
theorem C8_stop_idempotent_cex :
    stopEverything (stopEverything c8PreStateW) = stopEverything c8PreStateW ∧
    openAudioHandles (stopEverything c8PreStateW) = 0 ∧
    (stopEverything c8PreStateW).timerSet = false ∧
    (stopEverything c8PreStateW).connState = ConnState.open ∧
    (stopEverything c8PreStateW).connState ≠ ConnState.closed := by decide

/-- Claim C8 (amended): `stop()` is idempotent — running `stopEverything`
twice from any state yields the same end state as running it once: zero
audio handles, no timer, no session reference, not recording, with the
streaming connection left in whatever state it already had (stop does not
close it); and running it on an already fully stopped controller is a
no-op. -/
theorem C8_stop_idempotent (s : RecState) :
    stopEverything (stopEverything s) = stopEverything s ∧
    openAudioHandles (stopEverything s) = 0 ∧
    (stopEverything s).timerSet = false ∧
    (stopEverything s).sessionRefSet = false ∧
    (stopEverything s).isRecording = false ∧
    (stopEverything s).connState = s.connState ∧
    (stopped s → stopEverything s = s) := by
  refine ⟨rfl, rfl, rfl, rfl, rfl, rfl, ?_⟩
  rintro ⟨h1, h2, h3, h4, h5, h6, h7⟩
  cases s
  simp_all [stopEverything]

/-- Witness for the amended C8: the freshly mounted controller is stopped,
and `stopEverything` leaves it untouched. -/
theorem C8_stop_idempotent_witness : stopEverything init = init :=
  (C8_stop_idempotent init).2.2.2.2.2.2 ⟨rfl, rfl, rfl, rfl, rfl, rfl, rfl⟩

/-- A session in which a turn began at elapsed second 0 (`turnStart = 0`)
and is still active when the timer has reached 7: start, open, one
fragment at elapsed 0, then seven ticks. -/
def c2StateW : RecState :=
  runActions init
    ([Action.start "T0", Action.openEvt,
      Action.message (some "hello".toList) false] ++
     List.replicate 7 Action.tickEvt)

/-- Counterexample to claim C2 as stated: at `c2StateW` a turn HAD started
(`isTurnActive = true`) with `turnStartElapsed = 0`, yet the final chunk
appended by `finish()` carries timestamp 7 — the elapsed-seconds value at
finish time — because the JS fallback `turnStartTimeRef.current ||
elapsedTimeRef.current` treats the legitimate turn-start value 0 as
absent.  The claim requires timestamp 0 here. -/
theorem C2_finish_timestamp_cex :
    c2StateW.isTurnActive = true ∧
    c2StateW.turnStart = 0 ∧
    c2StateW.elapsedRef = 7 ∧
    (handleFinish true "T1" c2StateW).2.chunks =
      [⟨7, "hello".toList⟩] ∧
    (7 : Nat) ≠ 0 := by decide

/-- Claim C2 (amended): for every session finished while the in-flight
buffer trims to something non-empty, `finish()` appends exactly one final
chunk whose text is the trimmed buffer and whose timestamp is the last
recorded `turnStartElapsed` when that value is non-zero; when
`turnStartElapsed` is zero — no turn ever started, or the turn began at
elapsed second 0 — the current elapsed-seconds value is used instead.
The same chunk list is what the returned `RecordingResult` carries. -/
theorem C2_finish_implicit_commit (s : RecState) (c : Bool) (now : String)
    (h : jsTrim s.currentTurn ≠ []) :
    (handleFinish c now s).2.chunks =
      s.chunks ++ [⟨if s.turnStart = 0 then s.elapsedRef else s.turnStart,
        jsTrim s.currentTurn⟩] ∧
    ∀ r, (handleFinish c now s).1 = some r →
      r.chunks =
        s.chunks ++ [⟨if s.turnStart = 0 then s.elapsedRef else s.turnStart,
          jsTrim s.currentTurn⟩] := by
  obtain ⟨hc, ht, hts, her, _⟩ := finishStop_fields s
  have key : (finishCommit (finishStop s)).chunks =
      s.chunks ++ [⟨if s.turnStart = 0 then s.elapsedRef else s.turnStart,
        jsTrim s.currentTurn⟩] := by
    unfold finishCommit
    rw [ht, if_pos h]
    dsimp only
    rw [hc, hts, her]
  refine ⟨by rw [handleFinish_state]; exact key, ?_⟩
  intro r hr
  rw [handleFinish_result c now s r hr]
  show (finishCommit (finishStop s)).chunks = _
  exact key

/-- Concrete input for the C2 witness: the spec's own example — in-flight
text "and that concludes", no `turnComplete` received, the turn having
started at elapsed second 4. -/
def c2AmendStateW : RecState :=
  { init with
    currentTurn := "and that concludes".toList
    isTurnActive := true
    turnStart := 4
    elapsedRef := 9
    elapsedTime := 9
    isRecording := true }

/-- Witness for the amended C2: finishing `c2AmendStateW` appends the one
final chunk `{timestamp: 4, text: "and that concludes"}`. -/
theorem C2_finish_implicit_commit_witness :
    (handleFinish true "T1" c2AmendStateW).2.chunks =
      c2AmendStateW.chunks ++
        [⟨if c2AmendStateW.turnStart = 0 then c2AmendStateW.elapsedRef
          else c2AmendStateW.turnStart, jsTrim c2AmendStateW.currentTurn⟩] ∧
    c2AmendStateW.chunks ++
        [⟨if c2AmendStateW.turnStart = 0 then c2AmendStateW.elapsedRef
          else c2AmendStateW.turnStart, jsTrim c2AmendStateW.currentTurn⟩] =
      [⟨4, "and that concludes".toList⟩] :=
  ⟨(C2_finish_implicit_commit c2AmendStateW true "T1" (by decide)).1, by decide⟩

/-- A session holding one committed chunk whose text has length exactly 5. -/
def c3StateW : RecState :=
  { init with chunks := [⟨0, "abcde".toList⟩], connState := ConnState.open }

/-- A session holding the committed chunk of the spec's de-dup example. -/
def c3MitoStateW : RecState :=
  { init with
    chunks := [⟨0, "the mitochondria is".toList⟩]
    connState := ConnState.open }

/-- Counterexample to claim C3 as stated, on two points.  First, an
overlap of exactly 5 characters does not trigger stripping: with committed
text "abcde" (length 5) and incoming fragment "abcdeXY", the in-flight
buffer becomes "abcdeXY", not "XY" — the code requires the committed
text's length to EXCEED 5.  Second, in the claim's own example the
stripped remainder is " the powerhouse" (the separating space survives the
JS `substring`), not "the powerhouse". -/
theorem C3_dedup_threshold_cex :
    ("abcde".toList : JStr).length = 5 ∧
    List.isPrefixOf "abcde".toList "abcdeXY".toList = true ∧
    (onmessage c3StateW (some "abcdeXY".toList) false).currentTurn =
      "abcdeXY".toList ∧
    "abcdeXY".toList ≠ "XY".toList ∧
    (onmessage c3MitoStateW
        (some "the mitochondria is the powerhouse".toList) false).currentTurn =
      " the powerhouse".toList ∧
    " the powerhouse".toList ≠ "the powerhouse".toList := by decide

/-- Claim C3 (amended): for every partial-text event that begins a new
turn, if the incoming text starts with the full text of the previously
committed chunk and that chunk's text is longer than 5 characters
(threshold strictly greater than 5), the repeated prefix is stripped and
exactly the remaining characters — including any separating whitespace,
e.g. " the powerhouse" in the spec's example — are appended to the
in-flight buffer; an overlap of 5 or fewer characters, or a fragment not
extending the committed text, is appended unstripped. -/
theorem C3_dedup_strip (s : RecState) (text : JStr)
    (cs : List TranscriptChunk) (L : TranscriptChunk)
    (hact : s.isTurnActive = false) (hch : s.chunks = cs ++ [L])
    (hne : text ≠ []) :
    (onmessage s (some text) false).currentTurn =
      s.currentTurn ++
        (if L.text.length > 5 ∧ L.text.isPrefixOf text then
          text.drop L.text.length
        else text) ∧
    (onmessage s (some text) false).isTurnActive = true ∧
    (onmessage s (some text) false).turnStart = s.elapsedRef := by
  unfold onmessage reconcileText
  simp only [hact, hch, List.getLast?_concat, if_neg hne, Bool.false_eq_true,
    if_false]
  exact ⟨trivial, trivial, trivial⟩

/-- Witness for the amended C3: the spec's example, with the corrected
leading space — committed "the mitochondria is" (length 19 > 5) followed
by fragment "the mitochondria is the powerhouse" puts " the powerhouse"
into the in-flight buffer. -/
theorem C3_dedup_strip_witness :
    (onmessage c3MitoStateW
        (some "the mitochondria is the powerhouse".toList) false).currentTurn =
      c3MitoStateW.currentTurn ++
        (if ("the mitochondria is".toList : JStr).length > 5 ∧
            List.isPrefixOf "the mitochondria is".toList
              "the mitochondria is the powerhouse".toList then
          "the mitochondria is the powerhouse".toList.drop
            ("the mitochondria is".toList : JStr).length
        else "the mitochondria is the powerhouse".toList) ∧
    c3MitoStateW.currentTurn ++
        (if ("the mitochondria is".toList : JStr).length > 5 ∧
            List.isPrefixOf "the mitochondria is".toList
              "the mitochondria is the powerhouse".toList then
          "the mitochondria is the powerhouse".toList.drop
            ("the mitochondria is".toList : JStr).length
        else "the mitochondria is the powerhouse".toList) =
      " the powerhouse".toList :=
  ⟨(C3_dedup_strip c3MitoStateW
      "the mitochondria is the powerhouse".toList []
      ⟨0, "the mitochondria is".toList⟩ (by decide) (by decide) (by decide)).1,
    by decide⟩

/-- Claim C6: a transport error arriving while the session is open
releases every audio handle, clears the timer, drops the session
reference and marks the connection errored, while leaving the committed
chunks and the in-flight buffer exactly as they were; consequently any
result a later `finish()` produces still starts with the chunks committed
before the failure. -/
theorem C6_error_preserves_transcript (s : RecState) (m : String)
    (hOpen : s.connState = ConnState.open) :
    (applyAction s (Action.errorEvt m)).chunks = s.chunks ∧
    (applyAction s (Action.errorEvt m)).currentTurn = s.currentTurn ∧
    openAudioHandles (applyAction s (Action.errorEvt m)) = 0 ∧
    (applyAction s (Action.errorEvt m)).connState = ConnState.errored ∧
    (applyAction s (Action.errorEvt m)).timerSet = false ∧
    (applyAction s (Action.errorEvt m)).sessionRefSet = false ∧
    ∀ c now r,
      (handleFinish c now (applyAction s (Action.errorEvt m))).1 = some r →
      ∃ t, r.chunks = s.chunks ++ t := by
  have hguard : applyAction s (Action.errorEvt m) = onerror m s := by
    simp [applyAction, hOpen]
  rw [hguard]
  refine ⟨rfl, rfl, rfl, rfl, rfl, rfl, ?_⟩
  intro c now r hr
  obtain ⟨t, ht⟩ := handleFinish_state_chunks c now (onerror m s)
  refine ⟨t, ?_⟩
  rw [handleFinish_result c now _ r hr, ← handleFinish_state c now (onerror m s)]
  show (handleFinish c now (onerror m s)).2.chunks = s.chunks ++ t
  rw [ht]
  rfl

/-- A session that committed the chunk `{timestamp: 0, text: "Hello
world"}` and has in-flight text "Next point" while still open. -/
def c6StateW : RecState :=
  runActions init
    [Action.start "T0", Action.openEvt,
     Action.message (some "Hello world".toList) false,
     Action.message none true,
     Action.message (some "Next point".toList) false]

/-- Witness for C6: a transport error on `c6StateW` keeps the committed
chunk and the in-flight buffer and leaves zero audio handles. -/
theorem C6_error_preserves_transcript_witness :
    (applyAction c6StateW (Action.errorEvt "Connection error")).chunks =
      c6StateW.chunks ∧
    (applyAction c6StateW (Action.errorEvt "Connection error")).currentTurn =
      c6StateW.currentTurn ∧
    openAudioHandles (applyAction c6StateW (Action.errorEvt "Connection error")) = 0 ∧
    c6StateW.chunks = [⟨0, "Hello world".toList⟩] ∧
    c6StateW.currentTurn = "Next point".toList :=
  ⟨(C6_error_preserves_transcript c6StateW "Connection error" (by decide)).1,
   (C6_error_preserves_transcript c6StateW "Connection error" (by decide)).2.1,
   (C6_error_preserves_transcript c6StateW "Connection error" (by decide)).2.2.1,
   by decide, by decide⟩

/-- The state after the exit path stop-while-open: start, connection
opens, user stops. -/
def c1StopStateW : RecState :=
  runActions init [Action.start "T0", Action.openEvt, Action.stop]

/-- The state after finishing a session whose connection the remote side
had already closed: start, open, remote close, finish. -/
def c1FinishStateW : RecState :=
  runActions init
    [Action.start "T0", Action.openEvt, Action.closeEvt,
     Action.finish true "T1"]

/-- Counterexample to claim C1 as stated, on two points.  First, the stop
exit path leaves the streaming connection in the `open` state — the
controller only nulls `sessionRef`; it never closes the connection — so
"zero open network connections" fails.  Second, `finish()` called after
the remote side closed the connection (which only flips `isRecording`)
skips `stopEverything` and leaves all four audio handles open, so "zero
open audio handles after every exit path" fails as well. -/
theorem C1_cleanup_cex :
    openAudioHandles c1StopStateW = 0 ∧
    c1StopStateW.connState = ConnState.open ∧
    ¬(c1StopStateW.connState = ConnState.closed ∨
      c1StopStateW.connState = ConnState.errored) ∧
    openAudioHandles c1FinishStateW = 4 ∧
    c1FinishStateW.isRecording = false := by decide

/-- Claim C1 (amended): the exit paths that run `stopEverything` — stop,
cancel, view unmount, transport error, and finish called while recording
— leave zero open audio handles, no running timer and no session
reference; the transport-error path additionally leaves the connection
`errored`, but local teardown (stop/finish/cancel/unmount) does not change
the connection state: the connection is closed or errored only when the
remote close or error callback fires. -/
theorem C1_cleanup_amended (s : RecState) (m : String) (c : Bool)
    (now : String) :
    (openAudioHandles (stopEverything s) = 0 ∧
      (stopEverything s).timerSet = false ∧
      (stopEverything s).sessionRefSet = false ∧
      (stopEverything s).connState = s.connState) ∧
    (openAudioHandles (onerror m s) = 0 ∧
      (onerror m s).timerSet = false ∧
      (onerror m s).sessionRefSet = false ∧
      (onerror m s).connState = ConnState.errored) ∧
    (s.isRecording = true →
      openAudioHandles (handleFinish c now s).2 = 0 ∧
      (handleFinish c now s).2.timerSet = false ∧
      (handleFinish c now s).2.sessionRefSet = false) := by
  refine ⟨⟨rfl, rfl, rfl, rfl⟩, ⟨rfl, rfl, rfl, rfl⟩, ?_⟩
  intro hrec
  have h1 : finishStop s = stopEverything s := by
    unfold finishStop
    rw [hrec]
    rfl
  rw [handleFinish_state, h1]
  unfold finishCommit
  split <;> exact ⟨rfl, rfl, rfl⟩

/-- Witness for the amended C1: finishing the recording session reached by
start-then-open leaves zero audio handles, no timer and no session ref. -/
theorem C1_cleanup_amended_witness :
    openAudioHandles
        (handleFinish true "T1"
          (runActions init [Action.start "T0", Action.openEvt])).2 = 0 ∧
    (handleFinish true "T1"
        (runActions init [Action.start "T0", Action.openEvt])).2.timerSet =
      false :=
  ⟨((C1_cleanup_amended
      (runActions init [Action.start "T0", Action.openEvt]) "m" true
      "T1").2.2 (by decide)).1,
   ((C1_cleanup_amended
      (runActions init [Action.start "T0", Action.openEvt]) "m" true
      "T1").2.2 (by decide)).2.1⟩

/-- `onframe` touches only the ghost counters and `sessionRef`; every
reconciler-visible field is unchanged. -/
theorem onframe_fields (s : RecState) :
    (onframe s).chunks = s.chunks ∧
    (onframe s).currentTurn = s.currentTurn ∧
    (onframe s).turnStart = s.turnStart ∧
    (onframe s).isTurnActive = s.isTurnActive ∧
    (onframe s).elapsedRef = s.elapsedRef ∧
    (onframe s).processorConnected = s.processorConnected ∧
    (onframe s).sourceConnected = s.sourceConnected ∧
    (onframe s).openHappened = s.openHappened := by
  unfold onframe
  by_cases h1 : s.streamOpen = true
  · by_cases h2 : (s.processorConnected && s.sourceConnected) = true
    · simp [h1, h2]
    · simp [h1, h2]
  · simp [h1]

theorem reconcileText_chunks (s : RecState) (it : Option JStr) :
    (reconcileText s it).chunks = s.chunks := by
  unfold reconcileText
  cases it with
  | none => rfl
  | some text =>
    dsimp only
    split
    · rfl
    · split <;> rfl

theorem reconcileTurnComplete_chunks (s : RecState) :
    ∃ t, (reconcileTurnComplete s).chunks = s.chunks ++ t := by
  unfold reconcileTurnComplete
  dsimp only
  split
  · exact ⟨_, rfl⟩
  · exact ⟨[], (List.append_nil _).symm⟩

theorem onmessage_chunks (s : RecState) (it : Option JStr) (tc : Bool) :
    ∃ t, (onmessage s it tc).chunks = s.chunks ++ t := by
  unfold onmessage
  dsimp only
  split
  · obtain ⟨t, ht⟩ := reconcileTurnComplete_chunks (reconcileText s it)
    exact ⟨t, by rw [ht, reconcileText_chunks]⟩
  · exact ⟨[], by rw [reconcileText_chunks, List.append_nil]⟩

/-- Every in-session action (anything but `start`) can only extend the
committed chunk list. -/
theorem applyAction_chunks (s : RecState) (a : Action)
    (ha : a.inSession = true) :
    ∃ t, (applyAction s a).chunks = s.chunks ++ t := by
  cases a with
  | start now => exact absurd ha (by simp [Action.inSession])
  | openEvt =>
    refine ⟨[], ?_⟩
    rw [List.append_nil]
    simp only [applyAction]
    split <;> rfl
  | message it tc =>
    simp only [applyAction]
    split
    · exact onmessage_chunks s it tc
    · exact ⟨[], (List.append_nil _).symm⟩
  | closeEvt =>
    refine ⟨[], ?_⟩
    rw [List.append_nil]
    simp only [applyAction]
    split <;> rfl
  | errorEvt m =>
    refine ⟨[], ?_⟩
    rw [List.append_nil]
    simp only [applyAction]
    split <;> rfl
  | tickEvt =>
    refine ⟨[], ?_⟩
    rw [List.append_nil]
    simp only [applyAction]
    split <;> rfl
  | frame =>
    refine ⟨[], ?_⟩
    rw [List.append_nil]
    simp only [applyAction]
    exact (onframe_fields s).1
  | stop => exact ⟨[], (List.append_nil _).symm⟩
  | finish c now => exact handleFinish_state_chunks c now s

theorem runActions_cons (s : RecState) (a : Action) (acts : List Action) :
    runActions s (a :: acts) = runActions (applyAction s a) acts := rfl

/-- Claim C4: within one session (no `start` in between), the committed
chunk list at any earlier time is a prefix of the committed chunk list at
any later time — reconciler events, ticks, stops, errors and `finish`
only ever append; no pushed chunk is mutated, removed or reordered. -/
theorem C4_chunks_append_only (s : RecState) (acts : List Action)
    (h : ∀ a ∈ acts, a.inSession = true) :
    ∃ t, (runActions s acts).chunks = s.chunks ++ t := by
  induction acts generalizing s with
  | nil => exact ⟨[], (List.append_nil _).symm⟩
  | cons a as ih =>
    obtain ⟨t1, h1⟩ := applyAction_chunks s a (h a (List.mem_cons_self a as))
    obtain ⟨t2, h2⟩ := ih (applyAction s a) fun x hx => h x (List.mem_cons_of_mem a hx)
    refine ⟨t1 ++ t2, ?_⟩
    rw [runActions_cons, h2, h1, List.append_assoc]

/-- Witness for C4: from the open session `c6StateW` (one committed chunk,
one in-flight turn), two further reconciler events only append — the
already committed chunk `{timestamp: 0, text: "Hello world"}` survives
unchanged in front. -/
theorem C4_chunks_append_only_witness :
    (∃ t, (runActions c6StateW
        [Action.message (some " again".toList) false,
         Action.message none true]).chunks = c6StateW.chunks ++ t) ∧
    (runActions c6StateW
        [Action.message (some " again".toList) false,
         Action.message none true]).chunks =
      [⟨0, "Hello world".toList⟩, ⟨0, "Next point again".toList⟩] :=
  ⟨C4_chunks_append_only c6StateW _ (by decide), by decide⟩

/-- The `onmessage` callback touches only the reconciler fields; the audio
graph flags, the ghost frame counters, the timer and the connection state
are unchanged. -/
theorem onmessage_fields (s : RecState) (it : Option JStr) (tc : Bool) :
    (onmessage s it tc).processorConnected = s.processorConnected ∧
    (onmessage s it tc).sourceConnected = s.sourceConnected ∧
    (onmessage s it tc).openHappened = s.openHappened ∧
    (onmessage s it tc).sentFrames = s.sentFrames ∧
    (onmessage s it tc).framesAfterOpen = s.framesAfterOpen ∧
    (onmessage s it tc).elapsedRef = s.elapsedRef ∧
    (onmessage s it tc).streamOpen = s.streamOpen ∧
    (onmessage s it tc).timerSet = s.timerSet ∧
    (onmessage s it tc).connState = s.connState := by
  refine ⟨?_, ?_, ?_, ?_, ?_, ?_, ?_, ?_, ?_⟩ <;>
    (unfold onmessage reconcileTurnComplete reconcileText
     cases it <;> dsimp only <;> (repeat' split) <;> rfl)

/-- Invariant behind the audio-flow claim: a connected processor implies
the open transition already happened this session, and the frames sent so
far never exceed the frames captured after open. -/
def Inv7 (s : RecState) : Prop :=
  (s.processorConnected = true → s.openHappened = true) ∧
  s.sentFrames ≤ s.framesAfterOpen

theorem inv7_init : Inv7 init := ⟨fun hp => Bool.noConfusion hp, Nat.le.refl⟩

theorem inv7_step (s : RecState) (a : Action) (h : Inv7 s) :
    Inv7 (applyAction s a) := by
  obtain ⟨h1, h2⟩ := h
  cases a with
  | start now => exact ⟨fun hp => Bool.noConfusion hp, Nat.le.refl⟩
  | openEvt =>
    simp only [applyAction]
    split
    · exact ⟨fun _ => rfl, h2⟩
    · exact ⟨h1, h2⟩
  | message it tc =>
    simp only [applyAction]
    split
    · obtain ⟨f1, _, f3, f4, f5, _⟩ := onmessage_fields s it tc
      exact ⟨fun hp => f3.trans (h1 (f1.symm.trans hp)), by rw [f4, f5]; exact h2⟩
    · exact ⟨h1, h2⟩
  | closeEvt =>
    simp only [applyAction]
    split
    · exact ⟨h1, h2⟩
    · exact ⟨h1, h2⟩
  | errorEvt m =>
    simp only [applyAction]
    split
    · exact ⟨fun hp => Bool.noConfusion hp, h2⟩
    · exact ⟨h1, h2⟩
  | tickEvt =>
    simp only [applyAction]
    split
    · exact ⟨h1, h2⟩
    · exact ⟨h1, h2⟩
  | frame =>
    simp only [applyAction]
    unfold onframe
    by_cases hs : s.streamOpen = true
    · by_cases hw : (s.processorConnected && s.sourceConnected) = true
      · have hproc : s.processorConnected = true :=
          (Bool.and_eq_true _ _ |>.mp hw).1
        have hopen : s.openHappened = true := h1 hproc
        simp only [if_pos hs, if_pos hw, hopen, eq_self_iff_true, if_true]
        exact ⟨fun _ => rfl, Nat.succ_le_succ h2⟩
      · simp only [if_pos hs, if_neg hw]
        exact ⟨h1, Nat.le_trans h2 (Nat.le_add_right _ _)⟩
    · simp only [if_neg hs]
      exact ⟨h1, h2⟩
  | stop => exact ⟨fun hp => Bool.noConfusion hp, h2⟩
  | finish c now =>
    have hfs : Inv7 (finishStop s) := by
      unfold finishStop
      split
      · exact ⟨fun hp => Bool.noConfusion hp, h2⟩
      · exact ⟨h1, h2⟩
    have e : applyAction s (Action.finish c now) = finishCommit (finishStop s) :=
      handleFinish_state c now s
    rw [e]
    unfold finishCommit
    split
    · exact hfs
    · exact hfs

theorem inv7_run (s : RecState) (acts : List Action) (h : Inv7 s) :
    Inv7 (runActions s acts) := by
  induction acts generalizing s with
  | nil => exact h
  | cons a as ih => exact ih (applyAction s a) (inv7_step s a h)

/-- Claim C7: in every session, no audio frame captured strictly before
the connection reached `Open` is ever encoded or sent — pre-open frames
are dropped, never buffered — so along every action trace from the
freshly mounted controller the number of frames sent never exceeds the
number of frames captured after the open transition. -/
theorem C7_no_audio_before_open (acts : List Action) :
    (runActions init acts).sentFrames ≤ (runActions init acts).framesAfterOpen :=
  (inv7_run init acts inv7_init).2

/-- Timestamps are non-decreasing along a committed chunk list. -/
def chunksMono (l : List TranscriptChunk) : Prop :=
  l.Pairwise fun a b => a.timestamp ≤ b.timestamp

theorem jsTrim_nil : jsTrim [] = [] := rfl

theorem jsTrim_ne_nil {t : JStr} (h : jsTrim t ≠ []) : t ≠ [] := by
  intro ht
  subst ht
  exact h jsTrim_nil

/-- Reconciler invariant behind the timestamp claim: committed timestamps
are non-decreasing and bounded by the elapsed counter; while a turn is
active they are also bounded by its recorded start, which is itself
bounded by the elapsed counter; and a non-empty in-flight buffer implies
an active turn. -/
def Inv10 (s : RecState) : Prop :=
  chunksMono s.chunks ∧
  (∀ c ∈ s.chunks, c.timestamp ≤ s.elapsedRef) ∧
  (s.isTurnActive = true →
    s.turnStart ≤ s.elapsedRef ∧ ∀ c ∈ s.chunks, c.timestamp ≤ s.turnStart) ∧
  (s.currentTurn ≠ [] → s.isTurnActive = true)

theorem inv10_reconcileText (s : RecState) (it : Option JStr)
    (h : Inv10 s) : Inv10 (reconcileText s it) := by
  obtain ⟨hm, hb, hta, hct⟩ := h
  unfold reconcileText
  cases it with
  | none => exact ⟨hm, hb, hta, hct⟩
  | some text =>
    dsimp only
    split
    · exact ⟨hm, hb, hta, hct⟩
    · split
      · next hact => exact ⟨hm, hb, hta, fun _ => hact⟩
      · exact ⟨hm, hb, fun _ => ⟨Nat.le.refl, hb⟩, fun _ => rfl⟩

theorem inv10_reconcileTurnComplete (s : RecState) (h : Inv10 s) :
    Inv10 (reconcileTurnComplete s) := by
  obtain ⟨hm, hb, hta, hct⟩ := h
  unfold reconcileTurnComplete
  dsimp only
  split
  · next htrim =>
    have hact : s.isTurnActive = true := hct (jsTrim_ne_nil htrim)
    obtain ⟨hts, hbts⟩ := hta hact
    refine ⟨?_, ?_, fun habs => Bool.noConfusion habs, fun habs => absurd rfl habs⟩
    · unfold chunksMono
      rw [List.pairwise_append]
      refine ⟨hm, List.Pairwise.cons (fun b hb => absurd hb (List.not_mem_nil _))
        List.Pairwise.nil, ?_⟩
      intro a ha b hbm
      rw [List.mem_singleton] at hbm
      subst hbm
      exact hbts a ha
    · intro c hc
      rw [List.mem_append] at hc
      rcases hc with hc | hc
      · exact hb c hc
      · rw [List.mem_singleton] at hc
        subst hc
        exact hts
  · exact ⟨hm, hb, fun habs => Bool.noConfusion habs, fun habs => absurd rfl habs⟩

theorem inv10_finishStop (s : RecState) (h : Inv10 s) :
    Inv10 (finishStop s) := by
  unfold finishStop
  split
  · exact h
  · exact h

/-- The forced commit of `handleFinish` keeps the committed timestamps
non-decreasing: the appended chunk uses the recorded turn start (bounding
all earlier timestamps while a turn is active) or, when that is zero, the
current elapsed value (bounding all earlier timestamps always). -/
theorem finishCommit_mono (s : RecState) (h : Inv10 s) :
    chunksMono (finishCommit s).chunks := by
  obtain ⟨hm, hb, hta, hct⟩ := h
  unfold finishCommit
  split
  · next htrim =>
    have hact : s.isTurnActive = true := hct (jsTrim_ne_nil htrim)
    obtain ⟨hts, hbts⟩ := hta hact
    unfold chunksMono
    dsimp only
    rw [List.pairwise_append]
    refine ⟨hm, List.Pairwise.cons (fun b hb => absurd hb (List.not_mem_nil _))
      List.Pairwise.nil, ?_⟩
    intro a ha b hbm
    rw [List.mem_singleton] at hbm
    subst hbm
    show a.timestamp ≤ if s.turnStart = 0 then s.elapsedRef else s.turnStart
    split
    · exact hb a ha
    · exact hbts a ha
  · exact hm

theorem inv10_init : Inv10 init :=
  ⟨List.Pairwise.nil, fun c hc => absurd hc (List.not_mem_nil c),
   fun habs => Bool.noConfusion habs, fun habs => absurd rfl habs⟩

theorem inv10_step (s : RecState) (a : Action) (h : Inv10 s)
    (ha : a.isFinish = false) : Inv10 (applyAction s a) := by
  obtain ⟨hm, hb, hta, hct⟩ := h
  cases a with
  | start now =>
    exact ⟨List.Pairwise.nil, fun c hc => absurd hc (List.not_mem_nil c),
      fun habs => ⟨Nat.zero_le _, fun c hc => absurd hc (List.not_mem_nil c)⟩,
      fun habs => absurd rfl habs⟩
  | openEvt =>
    simp only [applyAction]
    split
    · exact ⟨hm, hb, hta, hct⟩
    · exact ⟨hm, hb, hta, hct⟩
  | message it tc =>
    simp only [applyAction]
    split
    · unfold onmessage
      dsimp only
      split
      · exact inv10_reconcileTurnComplete _ (inv10_reconcileText s it ⟨hm, hb, hta, hct⟩)
      · exact inv10_reconcileText s it ⟨hm, hb, hta, hct⟩
    · exact ⟨hm, hb, hta, hct⟩
  | closeEvt =>
    simp only [applyAction]
    split
    · exact ⟨hm, hb, hta, hct⟩
    · exact ⟨hm, hb, hta, hct⟩
  | errorEvt m =>
    simp only [applyAction]
    split
    · exact ⟨hm, hb, hta, hct⟩
    · exact ⟨hm, hb, hta, hct⟩
  | tickEvt =>
    simp only [applyAction]
    split
    · refine ⟨hm, fun c hc => Nat.le_succ_of_le (hb c hc), fun hact => ?_, hct⟩
      obtain ⟨h1, h2⟩ := hta hact
      exact ⟨Nat.le_succ_of_le h1, h2⟩
    · exact ⟨hm, hb, hta, hct⟩
  | frame =>
    obtain ⟨f1, f2, f3, f4, f5, _⟩ := onframe_fields s
    simp only [applyAction]
    refine ⟨by rw [f1]; exact hm, ?_, ?_, ?_⟩
    · intro c hc
      rw [f1] at hc
      rw [f5]
      exact hb c hc
    · intro hact
      rw [f4] at hact
      obtain ⟨x1, x2⟩ := hta hact
      refine ⟨by rw [f3, f5]; exact x1, ?_⟩
      intro c hc
      rw [f1] at hc
      rw [f3]
      exact x2 c hc
    · intro hcne
      rw [f2] at hcne
      rw [f4]
      exact hct hcne
  | stop => exact ⟨hm, hb, hta, hct⟩
  | finish c now => exact absurd ha (by simp [Action.isFinish])

theorem inv10_run (s : RecState) (acts : List Action) (h : Inv10 s)
    (hin : ∀ a ∈ acts, a.isFinish = false) : Inv10 (runActions s acts) := by
  induction acts generalizing s with
  | nil => exact h
  | cons a as ih =>
    exact ih (applyAction s a)
      (inv10_step s a h (hin a (List.mem_cons_self a as)))
      fun x hx => hin x (List.mem_cons_of_mem a hx)

/-- Claim C10: within any single session — any trace from the freshly
mounted controller with no intervening `finish`, optionally closed by one
final `finish()` — the committed chunks carry non-negative timestamps
that are non-decreasing in append order: each timestamp comes from the
elapsed-seconds counter (a natural number starting at zero and only
incremented), and turns are committed in the order they start. -/
theorem C10_timestamps_monotone (acts : List Action)
    (hin : ∀ a ∈ acts, a.isFinish = false) (c : Bool) (now : String) :
    chunksMono (runActions init acts).chunks ∧
    (∀ ch ∈ (runActions init acts).chunks, 0 ≤ ch.timestamp) ∧
    chunksMono (handleFinish c now (runActions init acts)).2.chunks := by
  have hI := inv10_run init acts inv10_init hin
  refine ⟨hI.1, fun ch _ => Nat.zero_le _, ?_⟩
  rw [handleFinish_state]
  exact finishCommit_mono _ (inv10_finishStop _ hI)

/-- The spec's end-to-end scenario: "Hello world" committed as the first
turn at elapsed 0, "Next point" in flight from elapsed 2, finish with the
turn still open. -/
def c10ActsW : List Action :=
  [Action.start "T0", Action.openEvt,
   Action.message (some "Hello world".toList) false,
   Action.message none true,
   Action.tickEvt, Action.tickEvt,
   Action.message (some "Next point".toList) false]

/-- Witness for C10: along the end-to-end scenario the final chunk list is
`[{0, "Hello world"}, {2, "Next point"}]`, monotone in timestamps. -/
theorem C10_timestamps_monotone_witness :
    chunksMono (handleFinish true "T1" (runActions init c10ActsW)).2.chunks ∧
    (handleFinish true "T1" (runActions init c10ActsW)).2.chunks =
      [⟨0, "Hello world".toList⟩, ⟨2, "Next point".toList⟩] :=
  ⟨(C10_timestamps_monotone c10ActsW (by decide) true "T1").2.2, by decide⟩

end Recorder
